import Mathlib

/- Shallow embedding of src/simple_vector.h: SimpleVector<Type>, a growable
contiguous-storage sequence container, together with the free comparison
operators and the ReserveProxyObj capacity hint.

The raw buffer class ArrayPtr<Type> (file array_ptr.h, the Buffer component
of the spec) is not part of src/.  Modelled from the spec (section 4.1
Buffer): a buffer is a fixed-capacity run of element slots, here a `List`
whose length is the allocated capacity; element access is indexing, swap
exchanges the lists, move transfer empties the source.  Allocation of n
slots is modelled as n default-valued slots: every allocation performed by
simple_vector.h is immediately and fully overwritten (FillWithDefaultValue,
std::fill, or a full element copy via the SimpleVector(size) constructor),
so the initial slot contents can never be observed.

size_t values are modelled as Nat (no arithmetic here can reach 2^64 on the
inputs the claims quantify over).  The std algorithms used by the source
(std::copy, std::move, std::copy_backward, std::move_backward, std::fill)
are embedded as their reference loop semantics; on element values, a moved
element transfers the same value a copied one does, so std::move over
elements coincides with std::copy in the model.  An out-of-bounds slot
write — undefined behaviour in the source — is modelled as a no-op, and an
out-of-bounds slot read yields the default value; every claim settled below
is decided on in-bounds traces only. -/

/-- Slot write at a possibly negative offset: in-bounds writes update the
slot, out-of-bounds writes (undefined behaviour in the source) are no-ops. -/
def setI {α : Type} (s : List α) (i : Int) (x : α) : List α :=
  if 0 ≤ i then s.set i.toNat x else s

/-- Iteration core of std::fill / SimpleVector::FillWithDefaultValue: write x
into slots first, first+1, ... for n iterations (the pointer loop
`while (from != to) { *from = x; ++from; }` runs to - from times). -/
def fillRangeGo {α : Type} (x : α) : Nat → Nat → List α → List α
  | _, 0, s => s
  | first, n + 1, s => fillRangeGo x (first + 1) n (s.set first x)

/-- std::fill(&a[first], &a[last], x), and FillWithDefaultValue when x is the
default value: fills slots [first, last). -/
def fillRange {α : Type} (s : List α) (first last : Nat) (x : α) : List α :=
  fillRangeGo x first (last - first) s

/-- Iteration core of std::copy / std::move between two distinct buffers:
n iterations of `*d_first++ = *first++;`, reading src, writing dst. -/
def copyForward2Go {α : Type} [Inhabited α] (src : List α) :
    Nat → Nat → List α → Nat → List α
  | _, 0, dst, _ => dst
  | first, n + 1, dst, d =>
    copyForward2Go src (first + 1) n (dst.set d (src.getD first default)) (d + 1)

/-- std::copy(src+first, src+last, dst+d) with src and dst distinct buffers
(also std::move, which transfers the same values on elements). -/
def copyForward2 {α : Type} [Inhabited α] (src : List α) (first last : Nat)
    (dst : List α) (d : Nat) : List α :=
  copyForward2Go src first (last - first) dst d

/-- Iteration core of std::copy_backward / std::move_backward between two
distinct buffers: n iterations of `*(--d_last) = *(--last);`. -/
def copyBackward2Go {α : Type} [Inhabited α] (src : List α) :
    Nat → Nat → List α → Nat → List α
  | _, 0, dst, _ => dst
  | last, n + 1, dst, dLast =>
    copyBackward2Go src (last - 1) n (dst.set (dLast - 1) (src.getD (last - 1) default)) (dLast - 1)

/-- std::copy_backward(src+first, src+last, dst+dLast) with src and dst
distinct buffers. -/
def copyBackward2 {α : Type} [Inhabited α] (src : List α) (first last : Nat)
    (dst : List α) (dLast : Nat) : List α :=
  copyBackward2Go src last (last - first) dst dLast

/-- Iteration core of the single-buffer forward copy: each read sees the
writes already performed (aliasing semantics). -/
def copyForwardAliasedGo {α : Type} [Inhabited α] : Nat → Nat → Nat → List α → List α
  | 0, _, _, s => s
  | n + 1, first, d, s =>
    copyForwardAliasedGo n (first + 1) (d + 1) (s.set d (s.getD first default))

/-- std::move(s+first, s+last, s+d) within ONE buffer: the forward loop
`*d++ = *first++;` under aliasing; the source only issues this with
d < first, where every read is still of an untouched slot. -/
def copyForwardAliased {α : Type} [Inhabited α] (s : List α) (first last d : Nat) : List α :=
  copyForwardAliasedGo (last - first) first d s

/-- Iteration core of std::copy_backward / std::move_backward within ONE
buffer: `*(--d_last) = *(--last);` where each read sees the writes already
performed.  d_last is an Int because the const-lvalue Insert overload passes
a destination whose write window can run past the left edge of the buffer. -/
def copyBackwardAliasedGo {α : Type} [Inhabited α] : Nat → Nat → Int → List α → List α
  | 0, _, _, s => s
  | n + 1, last, dLast, s =>
    copyBackwardAliasedGo n (last - 1) (dLast - 1) (setI s (dLast - 1) (s.getD (last - 1) default))

/-- std::copy_backward(s+first, s+last, s+dLast) (or move_backward) within
one buffer, reference loop semantics. -/
def copyBackwardAliased {α : Type} [Inhabited α] (s : List α) (first last : Nat)
    (dLast : Int) : List α :=
  copyBackwardAliasedGo (last - first) last dLast s

/-- Modelled from the spec: ArrayPtr<Type>(n) (array_ptr.h is absent from
src/) allocates a buffer of n slots; the slots are modelled as default
values because every caller in simple_vector.h overwrites all of them
before any can be read. -/
def alloc {α : Type} [Inhabited α] (n : Nat) : List α := List.replicate n default

/-- class ReserveProxyObj: a capacity hint carrying one integer. -/
structure ReserveProxyObj where
  capacity_to_reserve_ : Nat
deriving DecidableEq

/-- ReserveProxyObj::GetCapacity(). -/
def ReserveProxyObj.GetCapacity (r : ReserveProxyObj) : Nat :=
  r.capacity_to_reserve_

/-- Free function Reserve(size_t): builds the capacity hint. -/
def ReserveHintFn (capacity_to_reserve : Nat) : ReserveProxyObj :=
  ReserveProxyObj.mk capacity_to_reserve

/-- template<typename Type> class SimpleVector: a buffer (array_ptr_, whose
list length is the allocated capacity), the logical size_ and the recorded
capacity_. -/
structure SimpleVector (α : Type) where
  array_ptr_ : List α
  size_ : Nat
  capacity_ : Nat
deriving DecidableEq

namespace SimpleVector

/-- SimpleVector() = default: no storage, size 0, capacity 0. -/
def mkDefault {α : Type} : SimpleVector α := ⟨[], 0, 0⟩

/-- SimpleVector(size_t size): allocate size slots, FillWithDefaultValue
over all of them, adopt the buffer by swap, set size_ = capacity_ = size. -/
def mkSized {α : Type} [Inhabited α] (size : Nat) : SimpleVector α :=
  ⟨fillRange (alloc size) 0 size default, size, size⟩

/-- SimpleVector(size_t size, const Type& value): allocate size slots,
std::fill them with value, size_ = capacity_ = size. -/
def mkSizedFill {α : Type} [Inhabited α] (size : Nat) (value : α) : SimpleVector α :=
  ⟨fillRange (alloc size) 0 size value, size, size⟩

/-- SimpleVector(std::initializer_list<Type>): build new_vector(init.size()),
std::copy the literal elements into it, swap it into self. -/
def mkFromList {α : Type} [Inhabited α] (init : List α) : SimpleVector α :=
  let new_vector : SimpleVector α := mkSized init.length
  ⟨copyForward2 init 0 init.length new_vector.array_ptr_ 0,
    new_vector.size_, new_vector.capacity_⟩

/-- size_t GetSize() const. -/
def GetSize {α : Type} (v : SimpleVector α) : Nat := v.size_

/-- size_t GetCapacity() const. -/
def GetCapacity {α : Type} (v : SimpleVector α) : Nat := v.capacity_

/-- bool IsEmpty() const. -/
def IsEmpty {α : Type} (v : SimpleVector α) : Bool := v.size_ == 0

/-- operator[](size_t): unchecked slot read. -/
def get {α : Type} [Inhabited α] (v : SimpleVector α) (index : Nat) : α :=
  v.array_ptr_.getD index default

/-- Type& At(size_t): returns the element when index < size_, otherwise
throws std::out_of_range("Out of range array").  At reads one slot and
never writes the vector, so the vector is unchanged whether or not it
throws. -/
def At {α : Type} [Inhabited α] (v : SimpleVector α) (index : Nat) : Except String α :=
  if index < v.size_ then Except.ok (v.array_ptr_.getD index default)
  else Except.error "Out of range array"

/-- void Clear(): size_ = 0, capacity and slots untouched. -/
def Clear {α : Type} (v : SimpleVector α) : SimpleVector α :=
  { v with size_ := 0 }

/-- The logical element sequence [begin, end): the first size_ slots. -/
def toList {α : Type} (v : SimpleVector α) : List α :=
  v.array_ptr_.take v.size_

/-- void swap(SimpleVector&): exchange buffer, size_ and capacity_ field by
field; returns (new value of *this, new value of other). -/
def swapOp {α : Type} (a b : SimpleVector α) : SimpleVector α × SimpleVector α :=
  (⟨b.array_ptr_, b.size_, b.capacity_⟩, ⟨a.array_ptr_, a.size_, a.capacity_⟩)

/-- SimpleVector(const SimpleVector&): allocate other.size_ slots, copy the
live elements, size_ = capacity_ = other.size_. -/
def copyCtor {α : Type} [Inhabited α] (other : SimpleVector α) : SimpleVector α :=
  ⟨copyForward2 other.array_ptr_ 0 other.size_ (alloc other.size_) 0,
    other.size_, other.size_⟩

/-- SimpleVector(SimpleVector&&): take the buffer and the counters, leave
the source empty; returns (constructed vector, moved-from source). -/
def moveCtor {α : Type} (other : SimpleVector α) : SimpleVector α × SimpleVector α :=
  (⟨other.array_ptr_, other.size_, other.capacity_⟩, ⟨[], 0, 0⟩)

/-- operator=(const SimpleVector&).  isSelf models the address test
`this == &rhs` (the source guards on `this != &rhs`); when isSelf is true
the two arguments denote the same object. -/
def assignCopy {α : Type} [Inhabited α] (lhs rhs : SimpleVector α) (isSelf : Bool) :
    SimpleVector α :=
  if isSelf then lhs
  else if rhs.IsEmpty then
    let t := Clear lhs
    { t with size_ := 0, capacity_ := 0 }
  else (swapOp lhs (copyCtor rhs)).1

/-- operator=(SimpleVector&&): returns (new value of *this, new value of
rhs); isSelf models `this == &rhs`. -/
def assignMove {α : Type} (lhs rhs : SimpleVector α) (isSelf : Bool) :
    SimpleVector α × SimpleVector α :=
  if isSelf then (lhs, rhs)
  else (⟨rhs.array_ptr_, rhs.size_, rhs.capacity_⟩, ⟨[], 0, 0⟩)

/-- void Resize(size_t new_size). -/
def Resize {α : Type} [Inhabited α] (v : SimpleVector α) (new_size : Nat) : SimpleVector α :=
  if v.size_ < new_size then
    if v.capacity_ < new_size then
      let max_size := max (2 * v.capacity_) new_size
      let a1 : List α := alloc max_size
      let a2 := copyForward2 v.array_ptr_ 0 v.size_ a1 0
      let a3 := fillRange a2 v.size_ max_size default
      ⟨a3, new_size, max_size⟩
    else
      ⟨fillRange v.array_ptr_ v.size_ new_size default, new_size, v.capacity_⟩
  else { v with size_ := new_size }

/-- void PushBack(const Type&). -/
def PushBackCopy {α : Type} [Inhabited α] (v : SimpleVector α) (item : α) : SimpleVector α :=
  if v.capacity_ = 0 then
    let new_vector : SimpleVector α := mkSized 1
    (swapOp v { new_vector with array_ptr_ := new_vector.array_ptr_.set 0 item }).1
  else if v.capacity_ = v.size_ then
    let new_vector : SimpleVector α := mkSized (2 * v.capacity_)
    let s1 := copyForward2 v.array_ptr_ 0 v.size_ new_vector.array_ptr_ 0
    let s2 := s1.set v.size_ item
    (swapOp v ⟨s2, v.size_ + 1, new_vector.capacity_⟩).1
  else
    { v with array_ptr_ := v.array_ptr_.set v.size_ item, size_ := v.size_ + 1 }

/-- void PushBack(Type&&): same branches; element transfer moves instead of
copies (same values), and the grown vector is installed with the move
assignment instead of swap. -/
def PushBackMove {α : Type} [Inhabited α] (v : SimpleVector α) (item : α) : SimpleVector α :=
  if v.capacity_ = 0 then
    let new_vector : SimpleVector α := mkSized 1
    (assignMove v { new_vector with array_ptr_ := new_vector.array_ptr_.set 0 item } false).1
  else if v.size_ = v.capacity_ then
    let new_vector : SimpleVector α := mkSized (2 * v.capacity_)
    let s1 := copyForward2 v.array_ptr_ 0 v.size_ new_vector.array_ptr_ 0
    let s2 := s1.set v.size_ item
    (assignMove v ⟨s2, v.size_ + 1, new_vector.capacity_⟩ false).1
  else
    { v with array_ptr_ := v.array_ptr_.set v.size_ item, size_ := v.size_ + 1 }

/-- Iterator Insert(ConstIterator pos, const Type& value): pos is the
offset std::distance(cbegin(), pos); returns (new vector, returned offset).
In the spare-capacity branch the source shifts the suffix with
std::copy_backward(begin() + pos_distance, end(), array_ptr_.Get() + pos_distance + 1). -/
def InsertCopy {α : Type} [Inhabited α] (v : SimpleVector α) (pos : Nat) (value : α) :
    SimpleVector α × Nat :=
  let pos_distance := pos
  if v.capacity_ = 0 then
    let new_vector : SimpleVector α := mkSized 1
    ((swapOp v { new_vector with array_ptr_ := new_vector.array_ptr_.set 0 value }).1,
      pos_distance)
  else if v.capacity_ = v.size_ then
    let new_vector : SimpleVector α := mkSized (2 * v.capacity_)
    let s1 := copyForward2 v.array_ptr_ 0 pos_distance new_vector.array_ptr_ 0
    let s2 := s1.set pos_distance value
    let s3 := copyBackward2 v.array_ptr_ pos_distance v.size_ s2 (v.size_ + 1)
    ((swapOp v ⟨s3, v.size_ + 1, new_vector.capacity_⟩).1, pos_distance)
  else
    let s1 := copyBackwardAliased v.array_ptr_ pos_distance v.size_ ((pos_distance : Int) + 1)
    let s2 := s1.set pos_distance value
    ({ v with array_ptr_ := s2, size_ := v.size_ + 1 }, pos_distance)

/-- Iterator Insert(ConstIterator pos, Type&& value): in the spare-capacity
branch the source shifts the suffix with
std::move_backward(begin() + pos_distance, end(), array_ptr_.Get() + size_ + 1). -/
def InsertMove {α : Type} [Inhabited α] (v : SimpleVector α) (pos : Nat) (value : α) :
    SimpleVector α × Nat :=
  let pos_distance := pos
  if v.capacity_ = 0 then
    let new_vector : SimpleVector α := mkSized 1
    ((assignMove v { new_vector with array_ptr_ := new_vector.array_ptr_.set 0 value } false).1,
      pos_distance)
  else if v.capacity_ = v.size_ then
    let new_vector : SimpleVector α := mkSized (2 * v.capacity_)
    let s1 := copyForward2 v.array_ptr_ 0 pos_distance new_vector.array_ptr_ 0
    let s2 := s1.set pos_distance value
    let s3 := copyBackward2 v.array_ptr_ pos_distance v.size_ s2 (v.size_ + 1)
    ((assignMove v ⟨s3, v.size_ + 1, new_vector.capacity_⟩ false).1, pos_distance)
  else
    let s1 := copyBackwardAliased v.array_ptr_ pos_distance v.size_ ((v.size_ : Int) + 1)
    let s2 := s1.set pos_distance value
    ({ v with array_ptr_ := s2, size_ := v.size_ + 1 }, pos_distance)

/-- void PopBack(): decrement size_ on a non-empty vector, no-op otherwise. -/
def PopBack {α : Type} (v : SimpleVector α) : SimpleVector α :=
  if v.IsEmpty then v else { v with size_ := v.size_ - 1 }

/-- Iterator Erase(ConstIterator pos): std::move(begin() + pos + 1, end(),
&array_ptr_[pos]), decrement size_; returns (new vector, returned offset). -/
def Erase {α : Type} [Inhabited α] (v : SimpleVector α) (pos : Nat) :
    SimpleVector α × Nat :=
  let pos_distance := pos
  let s := copyForwardAliased v.array_ptr_ (pos_distance + 1) v.size_ pos_distance
  ({ v with array_ptr_ := s, size_ := v.size_ - 1 }, pos_distance)

/-- void Reserve(size_t new_capacity): grow to exactly new_capacity when it
exceeds the current capacity, otherwise no-op. -/
def Reserve {α : Type} [Inhabited α] (v : SimpleVector α) (new_capacity : Nat) :
    SimpleVector α :=
  if v.capacity_ < new_capacity then
    let new_vector : SimpleVector α := mkSized new_capacity
    let s := copyForward2 v.array_ptr_ 0 v.size_ new_vector.array_ptr_ 0
    (swapOp v ⟨s, v.size_, new_vector.capacity_⟩).1
  else v

/-- SimpleVector(ReserveProxyObj): the constructor body calls
Reserve(object.GetCapacity()); unqualified lookup finds the member
SimpleVector::Reserve (which hides the free function), invoked on the
freshly default-constructed *this. -/
def mkFromReserveProxy {α : Type} [Inhabited α] (object : ReserveProxyObj) :
    SimpleVector α :=
  Reserve (mkDefault : SimpleVector α) object.GetCapacity

end SimpleVector

/-- Loop semantics of the four-argument std::equal used by operator==: the
two ranges are equal iff they have the same length and agree pointwise. -/
def seqEq {α : Type} [DecidableEq α] : List α → List α → Bool
  | [], [] => true
  | [], _ :: _ => false
  | _ :: _, [] => false
  | a :: as, b :: bs => if a = b then seqEq as bs else false

/-- Loop semantics of std::lexicographical_compare used by operator<. -/
def lexComp {α : Type} [LT α] [DecidableRel ((· < ·) : α → α → Prop)] :
    List α → List α → Bool
  | _, [] => false
  | [], _ :: _ => true
  | a :: as, b :: bs => if a < b then true else if b < a then false else lexComp as bs

/-- operator==(lhs, rhs): std::equal over the two logical sequences. -/
def vecEq {α : Type} [DecidableEq α] (lhs rhs : SimpleVector α) : Bool :=
  seqEq lhs.toList rhs.toList

/-- operator!=(lhs, rhs) = !(lhs == rhs). -/
def vecNe {α : Type} [DecidableEq α] (lhs rhs : SimpleVector α) : Bool :=
  !(vecEq lhs rhs)

/-- operator<(lhs, rhs): std::lexicographical_compare over the sequences. -/
def vecLt {α : Type} [LT α] [DecidableRel ((· < ·) : α → α → Prop)]
    (lhs rhs : SimpleVector α) : Bool :=
  lexComp lhs.toList rhs.toList

/-- operator>(lhs, rhs) = rhs < lhs. -/
def vecGt {α : Type} [LT α] [DecidableRel ((· < ·) : α → α → Prop)]
    (lhs rhs : SimpleVector α) : Bool :=
  vecLt rhs lhs

/-- operator<=(lhs, rhs) = !(lhs > rhs). -/
def vecLe {α : Type} [LT α] [DecidableRel ((· < ·) : α → α → Prop)]
    (lhs rhs : SimpleVector α) : Bool :=
  !(vecGt lhs rhs)

/-- operator>=(lhs, rhs) = !(lhs < rhs). -/
def vecGe {α : Type} [LT α] [DecidableRel ((· < ·) : α → α → Prop)]
    (lhs rhs : SimpleVector α) : Bool :=
  !(vecLt lhs rhs)

/-- Well-formedness of the representation: the logical size fits in the
capacity and the buffer really holds capacity_ slots.  Every reachable
vector satisfies it. -/
abbrev SimpleVector.WF {α : Type} (v : SimpleVector α) : Prop :=
  v.size_ ≤ v.capacity_ ∧ v.array_ptr_.length = v.capacity_

/-- The size/capacity part of the representation invariant on its own. -/
abbrev SimpleVector.SizeInv {α : Type} (v : SimpleVector α) : Prop :=
  v.size_ ≤ v.capacity_

/- ------------------------------------------------------------------ -/
/- Helper lemmas about the loop embeddings.                            -/
/- ------------------------------------------------------------------ -/

theorem take_set_of_le {α : Type} :
    ∀ (s : List α) (i j : Nat) (x : α), j ≤ i → (s.set i x).take j = s.take j := by
  intro s
  induction s with
  | nil => intro i j x h; simp
  | cons a as ih =>
    intro i j x h
    cases i with
    | zero =>
      have hj : j = 0 := Nat.le_zero.mp h
      subst hj; simp
    | succ i =>
      cases j with
      | zero => simp
      | succ j =>
        simp only [List.set, List.take_succ_cons, List.cons.injEq, true_and]
        exact ih i j x (Nat.succ_le_succ_iff.mp h)

theorem set_take_succ {α : Type} :
    ∀ (s : List α) (i : Nat) (x : α), i < s.length →
      (s.set i x).take (i + 1) = s.take i ++ [x] := by
  intro s
  induction s with
  | nil => intro i x h; simp at h
  | cons a as ih =>
    intro i x h
    cases i with
    | zero => simp
    | succ i =>
      simp only [List.set, List.take_succ_cons, List.cons_append, List.cons.injEq, true_and]
      exact ih i x (by simpa using h)

theorem length_fillRangeGo {α : Type} (x : α) :
    ∀ (n first : Nat) (s : List α), (fillRangeGo x first n s).length = s.length := by
  intro n
  induction n with
  | zero => intro first s; rfl
  | succ n ih =>
    intro first s
    show (fillRangeGo x (first + 1) n (s.set first x)).length = s.length
    rw [ih]; simp

theorem fillRangeGo_eq {α : Type} (x : α) :
    ∀ (n first : Nat) (s : List α), first + n ≤ s.length →
      fillRangeGo x first n s = s.take first ++ List.replicate n x ++ s.drop (first + n) := by
  intro n
  induction n with
  | zero =>
    intro first s h
    simp [fillRangeGo]
  | succ n ih =>
    intro first s h
    have hfirst : first < s.length := by omega
    show fillRangeGo x (first + 1) n (s.set first x) = _
    rw [ih (first + 1) (s.set first x) (by simp; omega)]
    rw [set_take_succ s first x hfirst]
    rw [List.drop_set_of_lt _ _ (by omega : first < first + 1 + n)]
    have harith : first + 1 + n = first + (n + 1) := by omega
    rw [harith]
    simp [List.replicate_succ, List.append_assoc]

theorem length_copyForward2Go {α : Type} [Inhabited α] (src : List α) :
    ∀ (n first : Nat) (dst : List α) (d : Nat),
      (copyForward2Go src first n dst d).length = dst.length := by
  intro n
  induction n with
  | zero => intro first dst d; rfl
  | succ n ih =>
    intro first dst d
    show (copyForward2Go src (first + 1) n (dst.set d (src.getD first default)) (d + 1)).length
      = dst.length
    rw [ih]; simp

theorem copyForward2Go_eq {α : Type} [Inhabited α] (src : List α) :
    ∀ (n first : Nat) (dst : List α) (d : Nat),
      first + n ≤ src.length → d + n ≤ dst.length →
      copyForward2Go src first n dst d =
        dst.take d ++ (src.drop first).take n ++ dst.drop (d + n) := by
  intro n
  induction n with
  | zero =>
    intro first dst d h1 h2
    simp [copyForward2Go]
  | succ n ih =>
    intro first dst d h1 h2
    have hfirst : first < src.length := by omega
    have hd : d < dst.length := by omega
    show copyForward2Go src (first + 1) n (dst.set d (src.getD first default)) (d + 1) = _
    rw [ih (first + 1) (dst.set d (src.getD first default)) (d + 1) (by omega) (by simp; omega)]
    rw [set_take_succ dst d _ hd]
    rw [List.drop_set_of_lt _ _ (by omega : d < d + 1 + n)]
    rw [List.getD_eq_getElem src default hfirst]
    have harith : d + 1 + n = d + (n + 1) := by omega
    rw [harith]
    have hsplit : (src.drop first).take (n + 1) = src[first] :: (src.drop (first + 1)).take n := by
      rw [List.drop_eq_getElem_cons hfirst, List.take_succ_cons]
    rw [hsplit]
    simp [List.append_assoc]

theorem swapOp_fst {α : Type} (a b : SimpleVector α) : (SimpleVector.swapOp a b).1 = b := rfl

theorem mkSized_eq {α : Type} [Inhabited α] (n : Nat) :
    (SimpleVector.mkSized n : SimpleVector α) = ⟨List.replicate n default, n, n⟩ := by
  unfold SimpleVector.mkSized fillRange alloc
  rw [fillRangeGo_eq default (n - 0) 0 (List.replicate n default) (by simp)]
  simp

/- ------------------------------------------------------------------ -/
/- Claims settled by concrete evaluation of the embedding.             -/
/- ------------------------------------------------------------------ -/

/-- C1: the claim states that Insert(p, x) yields the prefix, then x, then
the old suffix, in every branch and for both overloads.  The const-lvalue
overload's spare-capacity branch contradicts it: on the vector {10, 20, 30}
with capacity 4 (reached by three PushBacks from a default vector),
Insert at offset 1 of the value 99 yields the sequence [30, 99, 30, 0]
instead of [10, 99, 20, 30] — std::copy_backward is called with destination
end begin()+pos+1 instead of begin()+size()+1, so the backward copy lands on
the prefix (and violates the algorithm's overlap precondition). -/
theorem claim1_insertCopy_spare_branch_corrupts :
    (SimpleVector.InsertCopy
        (List.foldl SimpleVector.PushBackCopy (SimpleVector.mkDefault : SimpleVector Nat)
          [10, 20, 30]) 1 99).1.toList = [30, 99, 30, 0] ∧
    (SimpleVector.InsertCopy
        (List.foldl SimpleVector.PushBackCopy (SimpleVector.mkDefault : SimpleVector Nat)
          [10, 20, 30]) 1 99).1.toList ≠ [10, 99, 20, 30] := by
  constructor
  · decide
  · decide

/-- C2: the claim states that Erase(pos) right after Insert(pos, x) restores
the original sequence.  With the const-lvalue Insert it fails on the vector
{1, 2, 3} with capacity 4 at pos 1: Insert corrupts the stored sequence to
[3, 9, 3, 0], and the subsequent Erase leaves [3, 3, 0], not [1, 2, 3]. -/
theorem claim2_insert_erase_roundtrip_fails :
    (SimpleVector.Erase
        (SimpleVector.InsertCopy
          (List.foldl SimpleVector.PushBackCopy (SimpleVector.mkDefault : SimpleVector Nat)
            [1, 2, 3]) 1 9).1 1).1.toList = [3, 3, 0] ∧
    (SimpleVector.Erase
        (SimpleVector.InsertCopy
          (List.foldl SimpleVector.PushBackCopy (SimpleVector.mkDefault : SimpleVector Nat)
            [1, 2, 3]) 1 9).1 1).1.toList ≠ [1, 2, 3] := by
  constructor
  · decide
  · decide

/-- C10: the claim states the copy and move overloads of Insert agree for
value-like element types.  They do not: on the vector {5, 6, 7} with
capacity 4, inserting 8 at offset 1 gives [7, 8, 7, 0] through the
const-lvalue overload but the correct [5, 8, 6, 7] through the rvalue
overload (the copy overload passes the wrong destination end to
std::copy_backward in the spare-capacity branch). -/
theorem claim10_insert_overloads_differ :
    (SimpleVector.InsertCopy
        (List.foldl SimpleVector.PushBackCopy (SimpleVector.mkDefault : SimpleVector Nat)
          [5, 6, 7]) 1 8).1.toList = [7, 8, 7, 0] ∧
    (SimpleVector.InsertMove
        (List.foldl SimpleVector.PushBackCopy (SimpleVector.mkDefault : SimpleVector Nat)
          [5, 6, 7]) 1 8).1.toList = [5, 8, 6, 7] ∧
    SimpleVector.InsertCopy
        (List.foldl SimpleVector.PushBackCopy (SimpleVector.mkDefault : SimpleVector Nat)
          [5, 6, 7]) 1 8 ≠
      SimpleVector.InsertMove
        (List.foldl SimpleVector.PushBackCopy (SimpleVector.mkDefault : SimpleVector Nat)
          [5, 6, 7]) 1 8 := by
  refine ⟨by decide, by decide, by decide⟩

/- ------------------------------------------------------------------ -/
/- Claims proved in general.                                           -/
/- ------------------------------------------------------------------ -/

/-- C5: a vector constructed from a ReserveRequest r has size 0 and
capacity r.GetCapacity().  (The constructor body's unqualified call
Reserve(object.GetCapacity()) resolves to the member SimpleVector::Reserve
on the default-constructed *this, which produces exactly this state.) -/
theorem claim5_reserve_proxy_ctor {α : Type} [Inhabited α] (r : ReserveProxyObj) :
    (SimpleVector.mkFromReserveProxy (α := α) r).GetSize = 0 ∧
    (SimpleVector.mkFromReserveProxy (α := α) r).GetCapacity = r.GetCapacity := by
  unfold SimpleVector.mkFromReserveProxy SimpleVector.Reserve
  by_cases h : (SimpleVector.mkDefault : SimpleVector α).capacity_ < r.GetCapacity
  · rw [if_pos h]
    simp [SimpleVector.GetSize, SimpleVector.GetCapacity, SimpleVector.swapOp,
      SimpleVector.mkSized, SimpleVector.mkDefault]
  · rw [if_neg h]
    have h0 : r.GetCapacity = 0 := by
      simp [SimpleVector.mkDefault] at h
      omega
    simp [SimpleVector.GetSize, SimpleVector.GetCapacity, SimpleVector.mkDefault, h0]

/-- C7: At(index) returns an out-of-range error exactly when index ≥ size,
and otherwise returns the element at that index.  At is embedded as a pure
read (the source reads one slot and performs no writes), so the vector is
unchanged in both outcomes. -/
theorem claim7_at_checked_access {α : Type} [Inhabited α]
    (v : SimpleVector α) (index : Nat) :
    ((∃ e, SimpleVector.At v index = Except.error e) ↔ v.GetSize ≤ index) ∧
    (index < v.GetSize → SimpleVector.At v index = Except.ok (SimpleVector.get v index)) := by
  unfold SimpleVector.At SimpleVector.get SimpleVector.GetSize
  constructor
  · constructor
    · rintro ⟨e, he⟩
      by_contra hlt
      rw [if_pos (by omega)] at he
      exact absurd he (by simp)
    · intro h
      rw [if_neg (by omega)]
      exact ⟨_, rfl⟩
  · intro h
    rw [if_pos h]

/-- Witness for C7 at concrete inputs: on the vector [3, 4] of size 2,
At 0 returns the element 3 and At 5 returns the out-of-range error. -/
theorem claim7_at_checked_access_witness :
    SimpleVector.At (SimpleVector.mk [3, 4] 2 2 : SimpleVector Nat) 0 = Except.ok 3 ∧
    (∃ e, SimpleVector.At (SimpleVector.mk [3, 4] 2 2 : SimpleVector Nat) 5 =
      Except.error e) := by
  constructor
  · exact (claim7_at_checked_access (SimpleVector.mk [3, 4] 2 2) 0).2 (by decide)
  · exact (claim7_at_checked_access (SimpleVector.mk [3, 4] 2 2) 5).1.mpr (by decide)

/-- C9: 0 ≤ size ≤ capacity holds for every freshly constructed vector and
is preserved by every public operation — PushBack, PopBack, Insert, Erase,
Clear, Resize, Reserve, copy/move construction and assignment, and swap —
under each operation's precondition (Erase: a dereferenceable position on a
non-empty vector; Insert: a position in [0, size]). -/
theorem claim9_size_le_capacity {α : Type} [Inhabited α]
    (v w : SimpleVector α) (r : ReserveProxyObj) (x : α) (xs : List α)
    (n pos : Nat) (b : Bool)
    (hv : v.SizeInv) (hw : w.SizeInv) :
    (SimpleVector.mkDefault : SimpleVector α).SizeInv ∧
    (SimpleVector.mkSized (α := α) n).SizeInv ∧
    (SimpleVector.mkSizedFill n x).SizeInv ∧
    (SimpleVector.mkFromList xs).SizeInv ∧
    (SimpleVector.mkFromReserveProxy (α := α) r).SizeInv ∧
    (SimpleVector.copyCtor v).SizeInv ∧
    (SimpleVector.moveCtor v).1.SizeInv ∧
    (SimpleVector.moveCtor v).2.SizeInv ∧
    (SimpleVector.assignCopy v w b).SizeInv ∧
    (SimpleVector.assignMove v w b).1.SizeInv ∧
    (SimpleVector.assignMove v w b).2.SizeInv ∧
    (SimpleVector.PushBackCopy v x).SizeInv ∧
    (SimpleVector.PushBackMove v x).SizeInv ∧
    (SimpleVector.PopBack v).SizeInv ∧
    (pos ≤ v.size_ → (SimpleVector.InsertCopy v pos x).1.SizeInv) ∧
    (pos ≤ v.size_ → (SimpleVector.InsertMove v pos x).1.SizeInv) ∧
    (0 < v.size_ → pos < v.size_ → (SimpleVector.Erase v pos).1.SizeInv) ∧
    (SimpleVector.Clear v).SizeInv ∧
    (SimpleVector.Resize v n).SizeInv ∧
    (SimpleVector.Reserve v n).SizeInv ∧
    (SimpleVector.swapOp v w).1.SizeInv ∧
    (SimpleVector.swapOp v w).2.SizeInv := by
  refine ⟨?_, ?_, ?_, ?_, ?_, ?_, ?_, ?_, ?_, ?_, ?_, ?_, ?_, ?_, ?_, ?_, ?_, ?_, ?_, ?_,
    ?_, ?_⟩
  · exact Nat.le_refl 0
  · exact Nat.le_refl n
  · exact Nat.le_refl n
  · exact Nat.le_refl xs.length
  · unfold SimpleVector.mkFromReserveProxy SimpleVector.Reserve
    split
    · exact Nat.zero_le _
    · exact Nat.le_refl 0
  · exact Nat.le_refl v.size_
  · exact hv
  · exact Nat.le_refl 0
  · unfold SimpleVector.assignCopy
    split
    · exact hv
    · split
      · exact Nat.le_refl 0
      · rw [swapOp_fst]; exact Nat.le_refl w.size_
  · unfold SimpleVector.assignMove
    split
    · exact hv
    · exact hw
  · unfold SimpleVector.assignMove
    split
    · exact hw
    · exact Nat.le_refl 0
  · unfold SimpleVector.PushBackCopy
    split
    · exact Nat.le_refl 1
    · split
      · rename_i h0 h1
        show v.size_ + 1 ≤ 2 * v.capacity_
        omega
      · rename_i h0 h1
        show v.size_ + 1 ≤ v.capacity_
        omega
  · unfold SimpleVector.PushBackMove
    split
    · exact Nat.le_refl 1
    · split
      · rename_i h0 h1
        show v.size_ + 1 ≤ 2 * v.capacity_
        omega
      · rename_i h0 h1
        show v.size_ + 1 ≤ v.capacity_
        omega
  · unfold SimpleVector.PopBack
    split
    · exact hv
    · show v.size_ - 1 ≤ v.capacity_
      omega
  · intro hpos
    unfold SimpleVector.InsertCopy
    split
    · exact Nat.le_refl 1
    · split
      · rename_i h0 h1
        show v.size_ + 1 ≤ 2 * v.capacity_
        omega
      · rename_i h0 h1
        show v.size_ + 1 ≤ v.capacity_
        omega
  · intro hpos
    unfold SimpleVector.InsertMove
    split
    · exact Nat.le_refl 1
    · split
      · rename_i h0 h1
        show v.size_ + 1 ≤ 2 * v.capacity_
        omega
      · rename_i h0 h1
        show v.size_ + 1 ≤ v.capacity_
        omega
  · intro hne hpos
    show v.size_ - 1 ≤ v.capacity_
    omega
  · exact Nat.zero_le v.capacity_
  · unfold SimpleVector.Resize
    split
    · split
      · show n ≤ max (2 * v.capacity_) n
        omega
      · rename_i h1 h2
        show n ≤ v.capacity_
        omega
    · rename_i h1
      show n ≤ v.capacity_
      omega
  · unfold SimpleVector.Reserve
    split
    · rename_i h
      show v.size_ ≤ n
      omega
    · exact hv
  · exact hw
  · exact hv

/-- Witness for C9 at concrete inputs: pushing 7 onto the vector [1] of
size 1, capacity 2 preserves size ≤ capacity. -/
theorem claim9_size_le_capacity_witness :
    (SimpleVector.PushBackCopy (SimpleVector.mk [1, 0] 1 2 : SimpleVector Nat) 7).SizeInv := by
  have h := claim9_size_le_capacity (SimpleVector.mk [1, 0] 1 2 : SimpleVector Nat)
    (SimpleVector.mk [] 0 0) (ReserveProxyObj.mk 3) 7 [] 2 0 false (by decide) (by decide)
  obtain ⟨-, -, -, -, -, -, -, -, -, -, -, hPB, -⟩ := h
  exact hPB

theorem copyCtor_toList {α : Type} [Inhabited α] (v : SimpleVector α) (hwf : v.WF) :
    (SimpleVector.copyCtor v).toList = v.toList := by
  obtain ⟨hsz, hlen⟩ := hwf
  unfold SimpleVector.copyCtor SimpleVector.toList copyForward2 alloc
  simp only
  rw [copyForward2Go_eq v.array_ptr_ (v.size_ - 0) 0 (List.replicate v.size_ default) 0
    (by simp; omega) (by simp)]
  simp only [Nat.sub_zero, List.take_zero, List.drop_zero, Nat.zero_add,
    List.drop_replicate, Nat.sub_self, List.replicate_zero, List.nil_append,
    List.append_nil]
  have hl : (v.array_ptr_.take v.size_).length = v.size_ := by
    rw [List.length_take]
    omega
  rw [List.take_of_length_le (by omega)]

/-- C6: copy assignment: self-assignment is a no-op (the `this != &rhs`
guard); assigning an empty rhs resets size and capacity to 0; assigning a
non-empty rhs builds a full copy first (capacity = rhs.size) and swaps it
in, leaving the vector element-wise equal to rhs with size = capacity =
rhs.size. -/
theorem claim6_copy_assignment {α : Type} [Inhabited α] (v rhs : SimpleVector α) :
    (SimpleVector.assignCopy v v true = v) ∧
    (rhs.IsEmpty = true →
      SimpleVector.assignCopy v rhs false = { v with size_ := 0, capacity_ := 0 }) ∧
    (rhs.WF → rhs.IsEmpty = false →
      (SimpleVector.assignCopy v rhs false).size_ = rhs.size_ ∧
      (SimpleVector.assignCopy v rhs false).capacity_ = rhs.size_ ∧
      (SimpleVector.assignCopy v rhs false).toList = rhs.toList) := by
  refine ⟨rfl, ?_, ?_⟩
  · intro hemp
    unfold SimpleVector.assignCopy
    rw [if_neg (by simp), if_pos hemp]
    rfl
  · intro hwf hne
    unfold SimpleVector.assignCopy
    rw [if_neg (by simp), if_neg (by simp [hne])]
    rw [swapOp_fst]
    exact ⟨rfl, rfl, copyCtor_toList rhs hwf⟩

/-- Witness for C6 at concrete inputs: self-assignment of [9] is the
identity, assigning the empty vector resets both counters to 0, and
assigning [4, 5] produces the sequence [4, 5] with size = capacity = 2. -/
theorem claim6_copy_assignment_witness :
    SimpleVector.assignCopy (SimpleVector.mk [9] 1 1 : SimpleVector Nat)
      (SimpleVector.mk [9] 1 1) true = SimpleVector.mk [9] 1 1 ∧
    SimpleVector.assignCopy (SimpleVector.mk [9] 1 1 : SimpleVector Nat)
      (SimpleVector.mk [] 0 0) false =
      { SimpleVector.mk [9] 1 1 with size_ := 0, capacity_ := 0 } ∧
    (SimpleVector.assignCopy (SimpleVector.mk [9] 1 1 : SimpleVector Nat)
      (SimpleVector.mk [4, 5] 2 2) false).toList = [4, 5] := by
  refine ⟨(claim6_copy_assignment (SimpleVector.mk [9] 1 1) (SimpleVector.mk [9] 1 1)).1,
    (claim6_copy_assignment (SimpleVector.mk [9] 1 1) (SimpleVector.mk [] 0 0)).2.1
      (by decide), ?_⟩
  have h := (claim6_copy_assignment (SimpleVector.mk [9] 1 1 : SimpleVector Nat)
    (SimpleVector.mk [4, 5] 2 2)).2.2 ⟨by decide, by decide⟩ (by decide)
  exact h.2.2

/-- C4: Resize(newSize) truncates in place when newSize ≤ size; default
fills the new tail in place when size < newSize ≤ capacity; and when
newSize > capacity reallocates to capacity max(2*capacity, newSize),
preserving the old elements and default-filling up to newSize. -/
theorem claim4_resize_cases {α : Type} [Inhabited α] (v : SimpleVector α) (n : Nat)
    (hwf : v.WF) :
    (n ≤ v.size_ → SimpleVector.Resize v n = { v with size_ := n }) ∧
    (v.size_ < n → n ≤ v.capacity_ →
      (SimpleVector.Resize v n).capacity_ = v.capacity_ ∧
      (SimpleVector.Resize v n).size_ = n ∧
      (SimpleVector.Resize v n).toList = v.toList ++ List.replicate (n - v.size_) default) ∧
    (v.capacity_ < n →
      (SimpleVector.Resize v n).capacity_ = max (2 * v.capacity_) n ∧
      (SimpleVector.Resize v n).size_ = n ∧
      (SimpleVector.Resize v n).toList = v.toList ++ List.replicate (n - v.size_) default) := by
  obtain ⟨hsz, hlen⟩ := hwf
  refine ⟨?_, ?_, ?_⟩
  · intro h
    unfold SimpleVector.Resize
    rw [if_neg (by omega)]
  · intro h1 h2
    unfold SimpleVector.Resize
    rw [if_pos h1, if_neg (by omega)]
    refine ⟨rfl, rfl, ?_⟩
    show (fillRange v.array_ptr_ v.size_ n default).take n = _
    unfold fillRange
    rw [fillRangeGo_eq default (n - v.size_) v.size_ v.array_ptr_ (by omega)]
    have harith : v.size_ + (n - v.size_) = n := by omega
    rw [harith]
    have hlen2 : (v.array_ptr_.take v.size_ ++ List.replicate (n - v.size_) default).length
        = n := by
      rw [List.length_append, List.length_take, List.length_replicate]
      omega
    rw [List.take_append_of_le_length (by omega)]
    rw [List.take_of_length_le (by omega)]
    rfl
  · intro h
    unfold SimpleVector.Resize
    rw [if_pos (by omega), if_pos h]
    refine ⟨rfl, rfl, ?_⟩
    show (fillRange (copyForward2 v.array_ptr_ 0 v.size_ (alloc (max (2 * v.capacity_) n)) 0)
      v.size_ (max (2 * v.capacity_) n) default).take n = _
    unfold fillRange copyForward2 alloc
    rw [copyForward2Go_eq v.array_ptr_ (v.size_ - 0) 0 (List.replicate (max (2 * v.capacity_) n) default) 0
      (by simp; omega) (by simp; omega)]
    simp only [Nat.sub_zero, List.take_zero, List.drop_zero, Nat.zero_add,
      List.drop_replicate, List.nil_append]
    have hlen1 : (v.array_ptr_.take v.size_
        ++ List.replicate (max (2 * v.capacity_) n - v.size_) default).length
        = max (2 * v.capacity_) n := by
      rw [List.length_append, List.length_take, List.length_replicate]
      omega
    rw [fillRangeGo_eq default (max (2 * v.capacity_) n - v.size_) v.size_ _ (by omega)]
    have harith : v.size_ + (max (2 * v.capacity_) n - v.size_) = max (2 * v.capacity_) n := by
      omega
    rw [harith]
    have hlen3 : (v.array_ptr_.take v.size_).length = v.size_ := by
      rw [List.length_take]; omega
    have hA : (v.array_ptr_.take v.size_
        ++ List.replicate (max (2 * v.capacity_) n - v.size_) default).take v.size_
        = v.array_ptr_.take v.size_ := by
      rw [List.take_append_of_le_length (by omega)]
      exact List.take_of_length_le (by omega)
    rw [hA]
    rw [List.drop_eq_nil_of_le (by omega)]
    rw [List.append_nil]
    rw [List.take_append_eq_append_take]
    rw [List.take_of_length_le (by omega)]
    rw [List.take_replicate]
    rw [hlen3]
    have hmin2 : min (n - v.size_) (max (2 * v.capacity_) n - v.size_) = n - v.size_ := by
      omega
    rw [hmin2]
    rfl

/-- Witness for C4 at a concrete input: resizing the vector [1, 2] (size 2,
capacity 2) to 5 gives capacity max(4, 5) = 5, size 5, and the sequence
[1, 2] padded with three default values. -/
theorem claim4_resize_cases_witness :
    (SimpleVector.Resize (SimpleVector.mk [1, 2] 2 2 : SimpleVector Nat) 5).capacity_
      = max (2 * 2) 5 ∧
    (SimpleVector.Resize (SimpleVector.mk [1, 2] 2 2 : SimpleVector Nat) 5).size_ = 5 ∧
    (SimpleVector.Resize (SimpleVector.mk [1, 2] 2 2 : SimpleVector Nat) 5).toList
      = (SimpleVector.mk [1, 2] 2 2 : SimpleVector Nat).toList
        ++ List.replicate (5 - 2) default := by
  exact (claim4_resize_cases (SimpleVector.mk [1, 2] 2 2) 5 ⟨by decide, by decide⟩).2.2
    (by decide)

theorem pushBackCopy_step {α : Type} [Inhabited α] (v : SimpleVector α) (x : α)
    (hwf : v.WF) :
    (SimpleVector.PushBackCopy v x).WF ∧
    (SimpleVector.PushBackCopy v x).toList = v.toList ++ [x] ∧
    (SimpleVector.PushBackCopy v x).size_ = v.size_ + 1 ∧
    (SimpleVector.PushBackCopy v x).capacity_ =
      (if v.capacity_ = 0 then 1
       else if v.capacity_ = v.size_ then 2 * v.capacity_ else v.capacity_) := by
  obtain ⟨hsz, hlen⟩ := hwf
  by_cases h0 : v.capacity_ = 0
  · have hs0 : v.size_ = 0 := by omega
    have hres : SimpleVector.PushBackCopy v x
        = SimpleVector.mk ((List.replicate 1 default).set 0 x) 1 1 := by
      unfold SimpleVector.PushBackCopy
      rw [if_pos h0]
      rfl
    rw [hres]
    refine ⟨⟨Nat.le_refl 1, by simp⟩, ?_, by show (1 : Nat) = v.size_ + 1; omega,
      by rw [if_pos h0]⟩
    show ((List.replicate 1 default).set 0 x).take 1 = v.toList ++ [x]
    show ([default].set 0 x).take 1 = v.toList ++ [x]
    show [x] = v.toList ++ [x]
    have hnil : v.toList = [] := by
      show v.array_ptr_.take v.size_ = []
      rw [hs0]
      rfl
    rw [hnil]
    rfl
  · by_cases h1 : v.capacity_ = v.size_
    · have hres : SimpleVector.PushBackCopy v x
          = SimpleVector.mk
              ((copyForward2 v.array_ptr_ 0 v.size_
                  (List.replicate (2 * v.capacity_) default) 0).set v.size_ x)
              (v.size_ + 1) (2 * v.capacity_) := by
        unfold SimpleVector.PushBackCopy
        rw [if_neg h0, if_pos h1]
        simp only [mkSized_eq]
        rw [swapOp_fst]
      have hs1 : copyForward2 v.array_ptr_ 0 v.size_
          (List.replicate (2 * v.capacity_) default) 0
          = v.array_ptr_.take v.size_
            ++ List.replicate (2 * v.capacity_ - v.size_) default := by
        unfold copyForward2
        rw [copyForward2Go_eq _ (v.size_ - 0) 0 _ 0 (by simp; omega) (by simp; omega)]
        simp only [Nat.sub_zero, List.take_zero, List.drop_zero, Nat.zero_add,
          List.nil_append, List.drop_replicate]
      have hlen1 : (v.array_ptr_.take v.size_
          ++ List.replicate (2 * v.capacity_ - v.size_) default).length
          = 2 * v.capacity_ := by
        rw [List.length_append, List.length_take, List.length_replicate]
        omega
      rw [hres, hs1]
      refine ⟨⟨by show v.size_ + 1 ≤ 2 * v.capacity_; omega,
        by rw [List.length_set]; exact hlen1⟩, ?_, rfl,
        by rw [if_neg h0, if_pos h1]⟩
      show ((v.array_ptr_.take v.size_
          ++ List.replicate (2 * v.capacity_ - v.size_) default).set v.size_ x).take
          (v.size_ + 1) = v.toList ++ [x]
      rw [set_take_succ _ v.size_ x (by omega)]
      rw [List.take_append_of_le_length (by rw [List.length_take]; omega)]
      rw [List.take_take]
      have hmin : min v.size_ v.size_ = v.size_ := by omega
      rw [hmin]
      rfl
    · have hres : SimpleVector.PushBackCopy v x
          = SimpleVector.mk (v.array_ptr_.set v.size_ x) (v.size_ + 1) v.capacity_ := by
        unfold SimpleVector.PushBackCopy
        rw [if_neg h0, if_neg h1]
      rw [hres]
      refine ⟨⟨by show v.size_ + 1 ≤ v.capacity_; omega,
        by rw [List.length_set]; exact hlen⟩, ?_, rfl,
        by rw [if_neg h0, if_neg h1]⟩
      show (v.array_ptr_.set v.size_ x).take (v.size_ + 1) = v.toList ++ [x]
      rw [set_take_succ _ v.size_ x (by omega)]
      rfl

theorem pushBackCopy_fold {α : Type} [Inhabited α] :
    ∀ (xs : List α) (v : SimpleVector α), v.WF →
      (v.capacity_ = 0 ∨ ∃ k, v.capacity_ = 2 ^ k) →
      (List.foldl SimpleVector.PushBackCopy v xs).WF ∧
      (List.foldl SimpleVector.PushBackCopy v xs).toList = v.toList ++ xs ∧
      (List.foldl SimpleVector.PushBackCopy v xs).size_ = v.size_ + xs.length ∧
      ((List.foldl SimpleVector.PushBackCopy v xs).capacity_ = 0 ∨
        ∃ k, (List.foldl SimpleVector.PushBackCopy v xs).capacity_ = 2 ^ k) := by
  intro xs
  induction xs with
  | nil =>
    intro v hwf hcap
    exact ⟨hwf, by simp, by simp, hcap⟩
  | cons a as ih =>
    intro v hwf hcap
    obtain ⟨hwf1, htl1, hsz1, hcap1⟩ := pushBackCopy_step v a hwf
    have hcap2 : (SimpleVector.PushBackCopy v a).capacity_ = 0 ∨
        ∃ k, (SimpleVector.PushBackCopy v a).capacity_ = 2 ^ k := by
      rw [hcap1]
      by_cases h0 : v.capacity_ = 0
      · rw [if_pos h0]
        exact Or.inr ⟨0, rfl⟩
      · rw [if_neg h0]
        rcases hcap with h | ⟨k, hk⟩
        · exact absurd h h0
        · by_cases h1 : v.capacity_ = v.size_
          · rw [if_pos h1]
            exact Or.inr ⟨k + 1, by rw [hk]; ring⟩
          · rw [if_neg h1]
            exact Or.inr ⟨k, hk⟩
    obtain ⟨hwf2, htl2, hsz2, hcap3⟩ := ih (SimpleVector.PushBackCopy v a) hwf1 hcap2
    refine ⟨hwf2, ?_, ?_, hcap3⟩
    · show (List.foldl SimpleVector.PushBackCopy (SimpleVector.PushBackCopy v a) as).toList
        = v.toList ++ a :: as
      rw [htl2, htl1]
      simp
    · show (List.foldl SimpleVector.PushBackCopy (SimpleVector.PushBackCopy v a) as).size_
        = v.size_ + (a :: as).length
      rw [hsz2, hsz1]
      simp
      omega

/-- C3: PushBack never reallocates when size < capacity (the stored value
lands at offset size, everything else unchanged); when size == capacity the
new capacity is max(1, 2*capacity); and n PushBacks from a default vector
leave a capacity that is 0 or a power of two, at least n, with the pushed
elements in order. -/
theorem claim3_pushBack_growth_policy {α : Type} [Inhabited α]
    (v : SimpleVector α) (item : α) (xs : List α) :
    (v.size_ < v.capacity_ →
      SimpleVector.PushBackCopy v item =
        { v with array_ptr_ := v.array_ptr_.set v.size_ item, size_ := v.size_ + 1 }) ∧
    (v.size_ = v.capacity_ →
      (SimpleVector.PushBackCopy v item).capacity_ = max 1 (2 * v.capacity_)) ∧
    ((List.foldl SimpleVector.PushBackCopy (SimpleVector.mkDefault : SimpleVector α)
        xs).capacity_ = 0 ∨
      ∃ k, (List.foldl SimpleVector.PushBackCopy (SimpleVector.mkDefault : SimpleVector α)
        xs).capacity_ = 2 ^ k) ∧
    xs.length ≤ (List.foldl SimpleVector.PushBackCopy
      (SimpleVector.mkDefault : SimpleVector α) xs).capacity_ ∧
    (List.foldl SimpleVector.PushBackCopy (SimpleVector.mkDefault : SimpleVector α)
      xs).toList = xs := by
  have hfold := pushBackCopy_fold xs (SimpleVector.mkDefault : SimpleVector α)
    ⟨Nat.le_refl 0, rfl⟩ (Or.inl rfl)
  obtain ⟨⟨hsz, hlen⟩, htl, hsize, hcap⟩ := hfold
  refine ⟨?_, ?_, hcap, ?_, ?_⟩
  · intro h
    unfold SimpleVector.PushBackCopy
    rw [if_neg (by omega), if_neg (by omega)]
  · intro h
    by_cases h0 : v.capacity_ = 0
    · unfold SimpleVector.PushBackCopy
      rw [if_pos h0]
      show (1 : Nat) = max 1 (2 * v.capacity_)
      omega
    · unfold SimpleVector.PushBackCopy
      rw [if_neg h0, if_pos h.symm]
      show 2 * v.capacity_ = max 1 (2 * v.capacity_)
      omega
  · rw [hsize] at hsz
    simpa [SimpleVector.mkDefault] using hsz
  · simpa [SimpleVector.mkDefault, SimpleVector.toList] using htl

/-- Witness for C3 at concrete inputs: pushing 7 onto [1] (size 1,
capacity 2) writes slot 1 in place, and pushing 3, 4, 5 onto a default
vector yields the sequence [3, 4, 5]. -/
theorem claim3_pushBack_growth_policy_witness :
    SimpleVector.PushBackCopy (SimpleVector.mk [1, 0] 1 2 : SimpleVector Nat) 7 =
      { (SimpleVector.mk [1, 0] 1 2 : SimpleVector Nat) with
          array_ptr_ := ([1, 0] : List Nat).set 1 7, size_ := 1 + 1 } ∧
    (List.foldl SimpleVector.PushBackCopy (SimpleVector.mkDefault : SimpleVector Nat)
      [3, 4, 5]).toList = [3, 4, 5] := by
  exact ⟨(claim3_pushBack_growth_policy (SimpleVector.mk [1, 0] 1 2) 7 []).1 (by decide),
    (claim3_pushBack_growth_policy (SimpleVector.mk [1, 0] 1 2) 7 [3, 4, 5]).2.2.2.2⟩

theorem seqEq_iff {α : Type} [DecidableEq α] :
    ∀ (xs ys : List α), seqEq xs ys = true ↔ xs = ys := by
  intro xs
  induction xs with
  | nil =>
    intro ys
    cases ys with
    | nil => simp [seqEq]
    | cons b bs => simp [seqEq]
  | cons a as ih =>
    intro ys
    cases ys with
    | nil => simp [seqEq]
    | cons b bs =>
      simp only [seqEq]
      split
      · rename_i h
        subst h
        simp [ih]
      · rename_i h
        simp [h]

theorem lexComp_iff {α : Type} [LinearOrder α] :
    ∀ (xs ys : List α), lexComp xs ys = true ↔ List.Lex (· < ·) xs ys := by
  intro xs
  induction xs with
  | nil =>
    intro ys
    cases ys with
    | nil =>
      simp only [lexComp, Bool.false_eq_true, false_iff]
      exact List.Lex.not_nil_right _ _
    | cons b bs =>
      simp only [lexComp, true_iff]
      exact List.Lex.nil
  | cons a as ih =>
    intro ys
    cases ys with
    | nil =>
      simp only [lexComp, Bool.false_eq_true, false_iff]
      exact List.Lex.not_nil_right _ _
    | cons b bs =>
      simp only [lexComp]
      split
      · rename_i hab
        simp only [true_iff]
        exact List.Lex.rel hab
      · split
        · rename_i hab hba
          simp only [Bool.false_eq_true, false_iff]
          intro hlex
          cases hlex with
          | cons h => exact absurd hba (lt_irrefl _)
          | rel h => exact absurd h hab
        · rename_i hab hba
          have heq : a = b := le_antisymm (not_lt.mp hba) (not_lt.mp hab)
          subst heq
          rw [ih bs]
          constructor
          · exact List.Lex.cons
          · intro h
            cases h with
            | cons h => exact h
            | rel h => exact absurd h (lt_irrefl a)

/-- C8: operator== holds iff the two logical sequences have the same size
and agree element-wise in order; operator< is lexicographic less-than over
the logical sequences (characterized by List.Lex of the element order);
and the remaining operators are the stated derived forms of == and <. -/
theorem claim8_comparisons {α : Type} [LinearOrder α]
    (a b : SimpleVector α) (hwa : a.WF) (hwb : b.WF) :
    (vecEq a b = true ↔ a.GetSize = b.GetSize ∧ a.toList = b.toList) ∧
    (vecLt a b = true ↔ List.Lex (· < ·) a.toList b.toList) ∧
    vecNe a b = !(vecEq a b) ∧
    vecGt a b = vecLt b a ∧
    vecLe a b = !(vecGt a b) ∧
    vecGe a b = !(vecLt a b) := by
  obtain ⟨hsa, hla⟩ := hwa
  obtain ⟨hsb, hlb⟩ := hwb
  refine ⟨?_, ?_, rfl, rfl, rfl, rfl⟩
  · unfold vecEq
    rw [seqEq_iff]
    constructor
    · intro h
      refine ⟨?_, h⟩
      have hlen1 : a.toList.length = a.size_ := by
        show (a.array_ptr_.take a.size_).length = a.size_
        rw [List.length_take]
        omega
      have hlen2 : b.toList.length = b.size_ := by
        show (b.array_ptr_.take b.size_).length = b.size_
        rw [List.length_take]
        omega
      show a.size_ = b.size_
      rw [← hlen1, ← hlen2, h]
    · intro ⟨_, h⟩
      exact h
  · unfold vecLt
    rw [lexComp_iff]

/-- Witness for C8 at concrete inputs: on the vectors [1, 2, 3] and
[1, 2, 4], operator< agrees with lexicographic less-than. -/
theorem claim8_comparisons_witness :
    vecLt (SimpleVector.mk [1, 2, 3] 3 3 : SimpleVector Nat)
        (SimpleVector.mk [1, 2, 4] 3 3) = true ↔
      List.Lex (· < ·) (SimpleVector.mk [1, 2, 3] 3 3 : SimpleVector Nat).toList
        (SimpleVector.mk [1, 2, 4] 3 3 : SimpleVector Nat).toList := by
  exact (claim8_comparisons (SimpleVector.mk [1, 2, 3] 3 3) (SimpleVector.mk [1, 2, 4] 3 3)
    ⟨by decide, by decide⟩ ⟨by decide, by decide⟩).2.1
